import Mathlib

/-!
Verification of `bzt/modules/grinder.py` (Grinder executor module of Taurus).

Text is modelled as `List Char` (named `Str` below) so that every operation
is a structural recursion the kernel can evaluate.  Python`s float division
`x / 1000.0` is modelled as exact division in `ℚ`; `int(...)` truncation is
`Int.tdiv`.  Fallible Python operations (`fields[i]`, `dict[k]`, `int(s)`)
are modelled with explicit `Except`/`Option` error values standing for the
exceptions (`IndexError`, `KeyError`, `ValueError`) they raise.
-/

/-- Character-list model of Python strings. -/
abbrev Str := List Char

/-- Model of `s.strip()`: drop whitespace from both ends. -/
def strTrim (s : Str) : Str :=
  ((s.dropWhile Char.isWhitespace).reverse.dropWhile Char.isWhitespace).reverse

/-- Python `s.split(d)` for a single-character separator `d`:
`"".split(",") = [""]`, empty pieces are kept. -/
def splitOnChar (d : Char) : Str → List Str
  | [] => [[]]
  | c :: cs =>
    if c = d then [] :: splitOnChar d cs
    else
      match splitOnChar d cs with
      | [] => [[c]]
      | f :: rest => (c :: f) :: rest

/-- Python `s.strip().isdigit()`-style check on an already stripped string:
nonempty and all decimal digits. -/
def pyIsDigit (s : Str) : Bool :=
  !s.isEmpty && s.all Char.isDigit

/-- Value of a nonempty all-digit string. -/
def pyDigitsVal : List Char → Option Nat
  | [] => none
  | ds =>
    if ds.all Char.isDigit then
      some (ds.foldl (fun n c => 10 * n + (c.toNat - 48)) 0)
    else none

/-- Python `int(s)`: surrounding whitespace allowed, optional sign, then a
nonempty digit string; anything else raises `ValueError` (modelled `none`). -/
def pyInt (s : Str) : Option Int :=
  match strTrim s with
  | '-' :: ds => (pyDigitsVal ds).map (fun n => -(n : Int))
  | '+' :: ds => (pyDigitsVal ds).map (fun n => (n : Int))
  | ds => (pyDigitsVal ds).map (fun n => (n : Int))

/-- A raw line as returned by `file.readlines()`: its text without the
terminator, and whether the terminator was present. -/
abbrev RawLine := Str × Bool

/-- Model of `readlines` on a chunk of text: split into lines, last piece kept
unterminated when the chunk does not end in a newline. -/
def splitRawC : Str → List RawLine
  | [] => []
  | c :: cs =>
    if c = '\n' then ([], true) :: splitRawC cs
    else
      match splitRawC cs with
      | [] => [([c], false)]
      | (l, t) :: rest => ((c :: l), t) :: rest

/-- One normalized sample, mirroring the tuple yielded at
`DataLogReader._read` line 386:
`(int(t_stamp), label, concur, r_time, con_time, latency, r_code, error, '')`. -/
structure Sample where
  t_stamp : Int
  label : Str
  concur : Option Nat
  r_time : ℚ
  con_time : ℚ
  latency : ℚ
  r_code : Str
  error : Option Str
  extra : Str
deriving DecidableEq, Repr

/-- The fixed error message of `_read` line 382. -/
def grinderErrMsg : Str := "There were some errors in Grinder test".toList

def indexErrorMsg : Str := "IndexError".toList
def keyErrorMsg : Str := "KeyError".toList
def valueErrorMsg : Str := "ValueError".toList

/-- Result of running the body of the `for line in lines` loop on one
complete line. -/
inductive LineResult where
  | skip
  | exn (e : Str)
  | sample (s : Sample)
deriving DecidableEq, Repr

/-- Association-list lookup used for the model of the Python dict
`self.idx`; entries for later columns precede earlier ones, so a duplicate
column name resolves to its last index, as dict assignment does. -/
def lookupStr : List (Str × Nat) → Str → Option Nat
  | [], _ => none
  | (k, v) :: rest, n => if k = n then some v else lookupStr rest n

/-- Model of `self.idx[field.strip()] = _ix` over `enumerate(header)`, starting at
index `i`; later entries are placed in front so lookup sees the last
assignment first. -/
def buildIdxAux (i : Nat) : List Str → List (Str × Nat)
  | [] => []
  | f :: fs => buildIdxAux (i + 1) fs ++ [(strTrim f, i)]

/-- Header-index map built from the raw header line
(`__open_fds` lines 401-404). -/
def buildIdx (line : Str) : List (Str × Nat) :=
  buildIdxAux 0 (splitOnChar ',' (strTrim line))

/-- Column names required by `_read` (source lines 374-381). -/
def colStart : Str := "Start time (ms since Epoch)".toList
def colTest : Str := "Test time".toList
def colTTFB : Str := "Time to first byte".toList
def colCode : Str := "HTTP response code".toList
def colResolve : Str := "Time to resolve host".toList
def colConn : Str := "Time to establish connection".toList
def colErrors : Str := "Errors".toList

/-- Model of `fields[self.idx[name]]`: `KeyError` when the column is unknown,
`IndexError` when the row is too short. -/
def getField (idx : List (Str × Nat)) (fields : List Str) (name : Str) :
    Except Str Str :=
  match lookupStr idx name with
  | none => .error keyErrorMsg
  | some i =>
    match fields.get? i with
    | none => .error indexErrorMsg
    | some v => .ok v

/-- Model of `int(fields[self.idx[name]])`: additionally `ValueError` when the text
is not an integer literal. -/
def getIntField (idx : List (Str × Nat)) (fields : List Str) (name : Str) :
    Except Str Int :=
  match getField idx fields name with
  | .error e => .error e
  | .ok v =>
    match pyInt v with
    | none => .error valueErrorMsg
    | some z => .ok z

/-- Body of the loop of `_read` (lines 369-386) after the line has been
stripped and split: the gate on `fields[1]`, then the field reads in source
order, then the yielded tuple. -/
def parseFields (idx : List (Str × Nat)) (fields : List Str) : LineResult :=
  match fields.get? 1 with
  | none => .exn indexErrorMsg
  | some f1 =>
    if pyIsDigit (strTrim f1) = false then .skip
    else
      match getIntField idx fields colStart with
      | .error e => .exn e
      | .ok t =>
      match getIntField idx fields colTest with
      | .error e => .exn e
      | .ok rt =>
      match getIntField idx fields colTTFB with
      | .error e => .exn e
      | .ok lt =>
      match getField idx fields colCode with
      | .error e => .exn e
      | .ok rc =>
      match getIntField idx fields colResolve with
      | .error e => .exn e
      | .ok c1 =>
      match getIntField idx fields colConn with
      | .error e => .exn e
      | .ok c2 =>
      match getIntField idx fields colErrors with
      | .error e => .exn e
      | .ok er =>
        .sample
          { t_stamp := Int.tdiv t 1000
            label := []
            concur := none
            r_time := (rt : ℚ) / 1000
            con_time := (c1 : ℚ) / 1000 + (c2 : ℚ) / 1000
            latency := (lt : ℚ) / 1000
            r_code := strTrim rc
            error := if er ≠ 0 then some grinderErrMsg else none
            extra := [] }

/-- Model of `line.strip().split(self.delimiter)` then the loop body. -/
def parseDataLine (idx : List (Str × Nat)) (line : Str) : LineResult :=
  parseFields idx (splitOnChar ',' (strTrim line))

/-- The `for line in lines` loop of `_read` (lines 361-386): unterminated
lines are appended to `partial_buffer`; a terminated line is prefixed with
the buffer, parsed, and either skipped, yielded, or raises (stopping the
generator).  Returns (samples yielded, final buffer, raised exception). -/
def processLines (idx : List (Str × Nat)) (buf : Str) :
    List RawLine → List Sample × Str × Option Str
  | [] => ([], buf, none)
  | (l, false) :: rest => processLines idx (buf ++ l) rest
  | (l, true) :: rest =>
    match parseDataLine idx (buf ++ l) with
    | .skip => processLines idx [] rest
    | .exn e => ([], [], some e)
    | .sample s =>
      let r := processLines idx [] rest
      (s :: r.1, r.2.1, r.2.2)

/-- Mutable state of a `DataLogReader` between `_read` calls. -/
structure ReaderState where
  opened : Bool
  idx : List (Str × Nat)
  partial_buffer : Str
  offset : Nat
deriving DecidableEq, Repr

/-- State after `__init__`. -/
def initState : ReaderState := ⟨false, [], [], 0⟩

/-- Result of one `_read` call: samples yielded, updated state, and the
exception that escaped the generator, if any. -/
structure ReadResult where
  samples : List Sample
  state : ReaderState
  error : Option Str
deriving DecidableEq, Repr

/-- Model of `readline()` on the freshly opened file: first line without its
terminator. -/
def firstLine (c : Str) : Str :=
  (splitOnChar '\n' c).headD []

/-- Lines 353-386 of `_read` once the file is open: seek to `offset`, read
the remaining content, advance `offset`, run the loop.  The 1 MiB cap that
line 358 puts on a non-final pass only bounds how much of the remainder one
call consumes; it is not modelled (a capped call equals an uncapped call on
the shorter file the cap selects). -/
def doRead (idx : List (Str × Nat)) (c : Str) (buf : Str) (off : Nat) :
    ReadResult :=
  let out := processLines idx buf (splitRawC (c.drop off))
  ⟨out.1, ⟨true, idx, out.2.1, c.length⟩, out.2.2⟩

namespace DataLogReader

/-- One call of `DataLogReader._read` (lines 343-386) together with
`__open_fds` (lines 388-404).  `file = none` models a missing file; the
file's text is `some c`.  While the file is missing or empty the call
yields nothing and leaves the state unchanged.  On the first successful
open the header-index map is built from the first line; `offset` is not
advanced by the header read, so the header line itself passes through the
loop (and is skipped by the `fields[1]` gate). -/
def _read (file : Option Str) (st : ReaderState) : ReadResult :=
  if st.opened then
    match file with
    | some c => doRead st.idx c st.partial_buffer st.offset
    | none => doRead st.idx [] st.partial_buffer st.offset
  else
    match file with
    | none => ⟨[], st, none⟩
    | some c =>
      if c = [] then ⟨[], st, none⟩
      else doRead (buildIdx (firstLine c)) c st.partial_buffer st.offset

end DataLogReader

/-! ## GrinderExecutor.check and post_process (lines 180-228) -/

/-- Inputs `check` inspects: `self.process.poll()`, whether `self.kpi_file`
is set (truthy), and existence/size of that file. -/
structure CheckEnv where
  retcode : Option Int
  kpiSet : Bool
  kpiExists : Bool
  kpiSize : Nat
deriving DecidableEq, Repr

/-- Outcome of `check`: its return value or the exception it raises. -/
inductive CheckOutcome where
  | notFinished
  | finished
  | runtimeError (msg : Str)
  | runtimeWarning (msg : Str)
deriving DecidableEq, Repr

namespace GrinderExecutor

/-- Model of `GrinderExecutor.check` (lines 180-204): `None` poll result means the
subprocess is alive and the call returns `False`; a non-zero exit code
raises `RuntimeError`; exit code 0 with the kpi file missing or empty
raises `RuntimeWarning`; otherwise the call returns `True`. -/
def check (e : CheckEnv) : CheckOutcome :=
  match e.retcode with
  | none => .notFinished
  | some rc =>
    if rc ≠ 0 then .runtimeError ("Grinder exited with non-zero code".toList)
    else if e.kpiSet && (!e.kpiExists || e.kpiSize == 0) then
      .runtimeWarning ("Empty results log, most likely the tool failed".toList)
    else .finished

/-- Model of `GrinderExecutor.post_process` (lines 221-228).  `readerSet` models
`self.reader` being set; `buffer` models `self.reader.buffer`.  Modelled
from the spec: `ResultsReader.buffer` lives in the aggregator base class
(not part of this file) and holds the samples the reader has produced over
the run.  Returns the raised `RuntimeWarning` message, if any. -/
def post_process (readerSet : Bool) (buffer : List Sample) : Option Str :=
  if readerSet && buffer.isEmpty then
    some ("Empty results, most likely Grinder failed".toList)
  else none

end GrinderExecutor

/-! ## GrinderMirrorsManager._parse_mirrors (lines 444-459) -/

/-- The literal `<li id="` opening the regex `r'<li id=".*?">'`. -/
def liOpenPat : Str := "<li id=\"".toList

/-- The literal `">` closing the regex. -/
def liClosePat : Str := "\">".toList

/-- Lazy completion of `.*?">`: the earliest `">` with no newline before it
(`.` does not match a newline).  Returns the matched middle and the text
after the `">`. -/
def findClose : Str → Option (Str × Str)
  | [] => none
  | c :: cs =>
    if liClosePat.isPrefixOf (c :: cs) then
      some ([], (c :: cs).drop liClosePat.length)
    else if c = '\n' then none
    else
      match findClose cs with
      | none => none
      | some (mid, rest) => some (c :: mid, rest)

/-- Model of `re.findall` with pattern `<li id=".*?">`: scan left to right; at each position
where `<li id="` starts, lazily complete with the earliest `">` on the same
line; matches do not overlap.  Structural on a fuel of `s.length`, which
suffices because every step consumes at least one character. -/
def findLiAux : Nat → Str → List Str
  | 0, _ => []
  | _ + 1, [] => []
  | fuel + 1, c :: cs =>
    if liOpenPat.isPrefixOf (c :: cs) then
      match findClose ((c :: cs).drop liOpenPat.length) with
      | some (mid, rest) => (liOpenPat ++ mid ++ liClosePat) :: findLiAux fuel rest
      | none => findLiAux fuel cs
    else findLiAux fuel cs

def findLiTokens (s : Str) : List Str := findLiAux s.length s

/-- Python `s.strip(chars)`: remove any characters of the set from both
ends. -/
def pyStripChars (set : Str) (s : Str) : Str :=
  ((s.dropWhile (set.contains ·)).reverse.dropWhile (set.contains ·)).reverse

/-- How line 453 turns a regex match into the `use_mirror` value:
`link.strip('<li id="').strip('">')` — both strips are by character set. -/
def liTokenValue (tok : Str) : Str :=
  pyStripChars liClosePat (pyStripChars liOpenPat tok)

/-- Shared head of both URL templates (lines 38-39 and 448-449). -/
def sfPrefix : Str :=
  "http://sourceforge.net/projects/grinder/files/The%20Grinder%203/".toList

/-- Model of `DOWNLOAD_LINK.format(version=v)` (lines 38-39). -/
def downloadLink (v : Str) : Str :=
  sfPrefix ++ v ++ "/grinder-".toList ++ v ++ "-binary.zip/download".toList

/-- Model of `base_link.format(version=v, mirror=m)` (lines 448-449). -/
def mirrorLink (v m : Str) : Str :=
  sfPrefix ++ v ++ "/grinder-".toList ++ v
    ++ "-binary.zip/download?use_mirror=".toList ++ m

namespace GrinderMirrorsManager

/-- Model of `GrinderMirrorsManager._parse_mirrors` (lines 444-459).  `page_source`
is `None` when the mirror page could not be fetched.  One link per regex
match (an empty match list leaves `links` empty, same as the `if
li_elements:` guard); the canonical download link is appended unless
already present. -/
def _parse_mirrors (page_source : Option Str) (version : Str) : List Str :=
  let links :=
    match page_source with
    | none => []
    | some page => (findLiTokens page).map (fun tok => mirrorLink version (liTokenValue tok))
  let default_link := downloadLink version
  if default_link ∈ links then links else links ++ [default_link]

end GrinderMirrorsManager

/-! ## Configuration artifact writing (lines 59-153, 304-327) -/

/-- Modelled from the spec: `os.path.realpath` canonicalizes a path through
the filesystem, which is outside the program; modelled as the identity on
already-canonical paths. -/
def realpath (s : Str) : Str := s

/-- Modelled from the spec: `os.path.basename` — the part after the last
path separator. -/
def basename (s : Str) : Str := (splitOnChar '/' s).getLastD []

def natStr (n : Nat) : Str := (Nat.repr n).toList

def intStr (z : Int) : Str := (Int.repr z).toList

/-- Load profile fields used by `__write_bzt_props`; `0` models a falsy
(absent) value for `concurrency`, `ramp_up` and `duration`. -/
structure LoadProfile where
  concurrency : Nat
  ramp_up : Nat
  iterations : Int
  duration : Nat
deriving DecidableEq, Repr

/-- Model of `__write_base_props` (lines 59-78): optional external file section,
then inline key=value properties. -/
def write_base_props (base_props_file : Option (Str × Str))
    (base_props : List (Str × Str)) : Str :=
  (match base_props_file with
   | none => []
   | some (path, contents) =>
     "# Base Properies File Start: ".toList ++ path ++ "\n".toList
       ++ contents
       ++ "# Base Properies File End: ".toList ++ path ++ "\n\n".toList) ++
  (match base_props with
   | [] => []
   | props =>
     "# Base Properies Start\n".toList
       ++ (props.map (fun kv => kv.1 ++ "=".toList ++ kv.2 ++ "\n".toList)).flatten
       ++ "# Base Properies End\n\n".toList)

/-- Model of `__write_scenario_props` (lines 80-102): same shape with the scenario
file and properties. -/
def write_scenario_props (script_props_file : Option (Str × Str))
    (local_props : List (Str × Str)) : Str :=
  (match script_props_file with
   | none => []
   | some (path, contents) =>
     "# Script Properies File Start: ".toList ++ path ++ "\n".toList
       ++ contents
       ++ "# Script Properies File End: ".toList ++ path ++ "\n\n".toList) ++
  (match local_props with
   | [] => []
   | props =>
     "# Scenario Properies Start\n".toList
       ++ (props.map (fun kv => kv.1 ++ "=".toList ++ kv.2 ++ "\n".toList)).flatten
       ++ "# Scenario Properies End\n\n".toList)

/-- Model of `__write_bzt_props` (lines 104-126): host id, script path, log
directory, then the load-derived properties when concurrency is set. -/
def write_bzt_props (script : Str) (artifacts_dir : Str) (load : LoadProfile) : Str :=
  "# BZT Properies Start\n".toList
    ++ "grinder.hostID=grinder-bzt\n".toList
    ++ "grinder.script=".toList ++ realpath script ++ "\n".toList
    ++ "grinder.logDirectory=".toList ++ realpath artifacts_dir ++ "\n".toList
    ++ (if load.concurrency ≠ 0 then
          (if load.ramp_up ≠ 0 then
             "grinder.processIncrementInterval=".toList
               ++ natStr (1000 * load.ramp_up / load.concurrency) ++ "\n".toList
           else [])
            ++ "grinder.processes=".toList ++ natStr load.concurrency ++ "\n".toList
            ++ "grinder.runs=".toList ++ intStr load.iterations ++ "\n".toList
            ++ "grinder.processIncrement=1\n".toList
            ++ (if load.duration ≠ 0 then
                  "grinder.duration=".toList ++ natStr (load.duration * 1000) ++ "\n".toList
                else [])
        else [])
    ++ "# BZT Properies End\n".toList

/-- The literal of the regex `r"grinder\.script.*"` (line 317). -/
def gsPat : Str := "grinder.script".toList

/-- Model of `re.findall` with pattern `grinder\.script.*`: each occurrence of the literal
`grinder.script` extends to the end of its line; scanning continues after
the match, so matches do not overlap.  Fuel as in `findLiAux`. -/
def findGsAux : Nat → Str → List Str
  | 0, _ => []
  | _ + 1, [] => []
  | fuel + 1, c :: cs =>
    if gsPat.isPrefixOf (c :: cs) then
      let body := (c :: cs).drop gsPat.length
      (gsPat ++ body.takeWhile (· ≠ '\n')) :: findGsAux fuel (body.dropWhile (· ≠ '\n'))
    else findGsAux fuel cs

def findGs (s : Str) : List Str := findGsAux s.length s

/-- Python `s.replace(old, new)`: non-overlapping left-to-right
replacement; an empty `old` inserts `new` at every position. -/
def strReplaceAux (old new : Str) : Nat → Str → Str
  | _, [] => []
  | 0, s => s
  | fuel + 1, c :: cs =>
    if old ≠ [] ∧ old.isPrefixOf (c :: cs) then
      new ++ strReplaceAux old new fuel ((c :: cs).drop old.length)
    else c :: strReplaceAux old new fuel cs

def strReplace (s old new : Str) : Str :=
  if old = [] then new ++ (s.map (fun c => [c] ++ new)).flatten
  else strReplaceAux old new s.length s

namespace GrinderExecutor

/-- Model of `__get_res_files_from_script` (lines 304-327): take the last
`grinder.script` match of the property text, read the path after the last
`=`; with an explicit scenario script, rewrite that path to the script's
basename everywhere; otherwise keep the text and record the embedded path.
`none` models the `IndexError` when no match exists. -/
def get_res_files_from_script (scenario_script : Option Str) (contents : Str) :
    Option (List Str × Str) :=
  match (findGs contents).getLast? with
  | none => none
  | some found =>
    let file_path_in_prop := strTrim ((splitOnChar '=' found).getLastD [])
    match scenario_script with
    | some sp => some ([sp], strReplace contents file_path_in_prop (basename sp))
    | none => some ([file_path_in_prop], contents)

/-- Inputs of the artifact-writing part of `prepare` (lines 143-153). -/
structure PrepareInputs where
  base_props_file : Option (Str × Str)
  base_props : List (Str × Str)
  scen_props_file : Option (Str × Str)
  scen_props : List (Str × Str)
  scenario_script : Option Str
  script : Str
  artifacts_dir : Str
  load : LoadProfile

/-- The configuration artifact as it exists when `prepare` finishes: the
three sections in order, then rewritten by `__get_res_files_from_script`
when any resource files were found (the returned list is never empty, so
the rewritten text is always the one written back).  `none` models the
`IndexError` path. -/
def preparedArtifact (inp : PrepareInputs) : Option Str :=
  let contents :=
    write_base_props inp.base_props_file inp.base_props
      ++ write_scenario_props inp.scen_props_file inp.scen_props
      ++ write_bzt_props inp.script inp.artifacts_dir inp.load
  match get_res_files_from_script inp.scenario_script contents with
  | none => none
  | some (res, modified) => some (if res ≠ [] then modified else contents)

end GrinderExecutor

/-- Recognizer for a script-path property line of the configuration
artifact: a line that starts with the text `grinder.script=`. -/
def isScriptPropLine (l : Str) : Bool :=
  ("grinder.script=".toList).isPrefixOf l

/-- Join a list of newline-free lines into terminated text. -/
def joinLines : List Str → Str
  | [] => []
  | l :: ls => l ++ '\n' :: joinLines ls

/-- Text that is empty or ends in a line terminator (every section writer
of the configuration artifact produces such text). -/
def endsNL (s : Str) : Prop := s = [] ∨ ∃ x, s = x ++ ['\n']

/-- The load-derived property lines `__write_bzt_props` emits (lines
117-125), as a line list. -/
def loadLines (load : LoadProfile) : List Str :=
  if load.concurrency ≠ 0 then
    (if load.ramp_up ≠ 0 then
       ["grinder.processIncrementInterval=".toList
          ++ natStr (1000 * load.ramp_up / load.concurrency)]
     else [])
      ++ ["grinder.processes=".toList ++ natStr load.concurrency,
          "grinder.runs=".toList ++ intStr load.iterations,
          "grinder.processIncrement=1".toList]
      ++ (if load.duration ≠ 0 then
            ["grinder.duration=".toList ++ natStr (load.duration * 1000)]
          else [])
  else []

/-- The full line list of the section `__write_bzt_props` writes. -/
def bztLines (script : Str) (artifacts_dir : Str) (load : LoadProfile) : List Str :=
  ["# BZT Properies Start".toList,
   "grinder.hostID=grinder-bzt".toList,
   "grinder.script=".toList ++ realpath script,
   "grinder.logDirectory=".toList ++ realpath artifacts_dir]
    ++ loadLines load
    ++ ["# BZT Properies End".toList]

/-- Tokens found on an optionally fetched page (none when the page was not
fetched), exactly as `_parse_mirrors` computes them before link building. -/
def pageTokens : Option Str → List Str
  | none => []
  | some p => findLiTokens p

/-! ## Concrete material used by the theorems -/

/-- The documented header line of the result log. -/
def docHeader : Str :=
  ("Start time (ms since Epoch),Test time,Time to first byte,"
    ++ "HTTP response code,Time to resolve host,Time to establish connection,"
    ++ "Errors").toList

/-- Header-index map of the documented header. -/
def docIdx : List (Str × Nat) := buildIdx docHeader

/-- The documented example data row. -/
def docRow : Str := "1000,250,50,200,10,5,0".toList

/-- Result log holding the documented header and the documented row. -/
def docFile : Str := docHeader ++ '\n' :: (docRow ++ ['\n'])

/-- The Sample the documented row is specified to produce. -/
def docSample : Sample :=
  { t_stamp := 1, label := [], concur := none, r_time := 1/4,
    con_time := 3/200, latency := 1/20, r_code := "200".toList,
    error := none, extra := [] }

/-- A second valid data row (with surrounding spaces in the response code
and a non-zero error count). -/
def docRow2 : Str := "2500,100,20, 404 ,1,2,3".toList

/-- The Sample of `docRow2`. -/
def docSample2 : Sample :=
  { t_stamp := 2, label := [], concur := none, r_time := 1/10,
    con_time := 3/1000, latency := 1/50, r_code := "404".toList,
    error := some grinderErrMsg, extra := [] }

/-- Result log with the header, a valid row, a stray header repeat (will be
skipped) and a second valid row. -/
def docFileMulti : Str :=
  docHeader ++ '\n' :: (docRow ++ '\n' :: (docHeader ++ '\n' :: (docRow2 ++ ['\n'])))

/-- Result log holding only the header line. -/
def headerOnlyFile : Str := docHeader ++ ['\n']

/-- A permutation of the documented header with the response-code column in
the second position. -/
def permHeader : Str :=
  ("Start time (ms since Epoch),HTTP response code,Test time,"
    ++ "Time to first byte,Time to resolve host,Time to establish connection,"
    ++ "Errors").toList

/-- A logical row whose response code is the non-numeric text `OK`, laid
out in the documented column order. -/
def rowCodeOkDoc : Str := "1000,250,50,OK,10,5,0".toList

/-- The same logical row laid out in the `permHeader` column order. -/
def rowCodeOkPerm : Str := "1000,OK,250,50,10,5,0".toList

def fileCodeOkDoc : Str := docHeader ++ '\n' :: (rowCodeOkDoc ++ ['\n'])

def fileCodeOkPerm : Str := permHeader ++ '\n' :: (rowCodeOkPerm ++ ['\n'])

/-- A mirror page with a single list item whose identifier starts with a
character of the strip set of line 453. -/
def pageDeb : Str := "<li id=\"deb\">".toList

/-- A mirror page with two distinct list items. -/
def pageTwo : Str := "<li id=\"freefr\"> x <li id=\"netcologne\">".toList

def ver311 : Str := "3.11".toList

/-- Prepare-inputs with nothing unusual: a scenario script, no property
files, no inline properties. -/
def inpClean : GrinderExecutor.PrepareInputs :=
  { base_props_file := none
    base_props := []
    scen_props_file := none
    scen_props := []
    scenario_script := some "dir/my.py".toList
    script := "dir/my.py".toList
    artifacts_dir := "/tmp/artifacts".toList
    load := ⟨2, 10, 100, 60⟩ }

/-- Prepare-inputs whose base properties file itself carries a
`grinder.script` line. -/
def inpDirty : GrinderExecutor.PrepareInputs :=
  { base_props_file :=
      some ("/base.properties".toList,
        "grinder.script=/foo/bar\ngrinder.useConsole=false\n".toList)
    base_props := []
    scen_props_file := none
    scen_props := [("grinder.threads".toList, "3".toList)]
    scenario_script := some "dir/my.py".toList
    script := "dir/my.py".toList
    artifacts_dir := "/tmp/artifacts".toList
    load := ⟨2, 10, 100, 60⟩ }

/-! ## Helper lemmas -/

set_option maxRecDepth 100000

theorem splitRawC_append_term (s t : Str) (h : '\n' ∉ s) :
    splitRawC (s ++ '\n' :: t) = (s, true) :: splitRawC t := by
  induction s with
  | nil => simp [splitRawC]
  | cons c cs ih =>
    have hc : ¬(c = '\n') := fun e => h (e ▸ List.mem_cons_self c cs)
    have h' : '\n' ∉ cs := fun m => h (List.mem_cons_of_mem _ m)
    simp [splitRawC, hc, ih h']

theorem splitRawC_noterm (s : Str) (h : '\n' ∉ s) (hne : s ≠ []) :
    splitRawC s = [(s, false)] := by
  induction s with
  | nil => cases hne rfl
  | cons c cs ih =>
    have hc : ¬(c = '\n') := fun e => h (e ▸ List.mem_cons_self c cs)
    rcases eq_or_ne cs [] with rfl | hcs
    · simp [splitRawC, hc]
    · have h' : '\n' ∉ cs := fun m => h (List.mem_cons_of_mem _ m)
      simp [splitRawC, hc, ih h' hcs]

theorem splitOnChar_append (d : Char) (s t : Str) (h : d ∉ s) :
    splitOnChar d (s ++ d :: t) = s :: splitOnChar d t := by
  induction s with
  | nil => simp [splitOnChar]
  | cons c cs ih =>
    have hc : ¬(c = d) := fun e => h (e ▸ List.mem_cons_self c cs)
    have h' : d ∉ cs := fun m => h (List.mem_cons_of_mem _ m)
    simp [splitOnChar, hc, ih h']

theorem firstLine_append (s t : Str) (h : '\n' ∉ s) :
    firstLine (s ++ '\n' :: t) = s := by
  simp [firstLine, splitOnChar_append '\n' s t h]

theorem lookupStr_append_none (a b : List (Str × Nat)) (n : Str)
    (h : lookupStr a n = none) : lookupStr (a ++ b) n = lookupStr b n := by
  induction a with
  | nil => simp
  | cons kv rest ih =>
    by_cases hk : kv.1 = n
    · simp [lookupStr, hk] at h
    · simp only [lookupStr, hk, if_false] at h ⊢
      exact ih h

theorem lookupStr_append_some (a b : List (Str × Nat)) (n : Str) (v : Nat)
    (h : lookupStr a n = some v) : lookupStr (a ++ b) n = some v := by
  induction a with
  | nil => simp [lookupStr] at h
  | cons kv rest ih =>
    by_cases hk : kv.1 = n
    · simp only [lookupStr, hk, if_true] at h
      show lookupStr (kv :: (rest ++ b)) n = some v
      simp [lookupStr, hk, h]
    · simp only [lookupStr, hk, if_false] at h
      show lookupStr (kv :: (rest ++ b)) n = some v
      simp [lookupStr, hk, ih h]

theorem lookupStr_buildIdxAux_none (fs : List Str) (i : Nat) (n : Str)
    (ht : ∀ s ∈ fs, strTrim s = s) (hn : n ∉ fs) :
    lookupStr (buildIdxAux i fs) n = none := by
  induction fs generalizing i with
  | nil => rfl
  | cons f fs ih =>
    have htf : strTrim f = f := ht f (List.mem_cons_self f fs)
    have hne : ¬(f = n) := fun e => hn (e ▸ List.mem_cons_self f fs)
    have hrest : lookupStr (buildIdxAux (i + 1) fs) n = none :=
      ih (i + 1) (fun s hs => ht s (List.mem_cons_of_mem _ hs))
        (fun m => hn (List.mem_cons_of_mem _ m))
    rw [buildIdxAux, lookupStr_append_none _ _ _ hrest]
    simp [lookupStr, htf, hne]

theorem lookupStr_buildIdxAux_get (fs : List Str) (i j : Nat) (n : Str)
    (ht : ∀ s ∈ fs, strTrim s = s) (hd : fs.Nodup) (hj : fs.get? j = some n) :
    lookupStr (buildIdxAux i fs) n = some (i + j) := by
  induction fs generalizing i j with
  | nil => simp at hj
  | cons f fs ih =>
    obtain ⟨hf, hd'⟩ := List.nodup_cons.mp hd
    have htf : strTrim f = f := ht f (List.mem_cons_self f fs)
    have ht' : ∀ s ∈ fs, strTrim s = s := fun s hs => ht s (List.mem_cons_of_mem _ hs)
    cases j with
    | zero =>
      have hfn : f = n := by simpa using hj
      subst hfn
      have hrest : lookupStr (buildIdxAux (i + 1) fs) f = none :=
        lookupStr_buildIdxAux_none fs (i + 1) f ht' hf
      rw [buildIdxAux, lookupStr_append_none _ _ _ hrest]
      simp [lookupStr, htf]
    | succ j' =>
      have hj' : fs.get? j' = some n := by simpa using hj
      have := ih (i + 1) j' ht' hd' hj'
      rw [buildIdxAux, lookupStr_append_some _ _ _ _ this]
      congr 1
      omega

theorem getField_buildIdx_map (hs : List Str) (v : Str → Str) (n : Str)
    (ht : ∀ s ∈ hs, strTrim s = s) (hd : hs.Nodup) (hn : n ∈ hs) :
    getField (buildIdxAux 0 hs) (hs.map v) n = .ok (v n) := by
  obtain ⟨j, hj⟩ := List.mem_iff_get?.mp hn
  have hl := lookupStr_buildIdxAux_get hs 0 j n ht hd hj
  rw [Nat.zero_add] at hl
  rw [List.get?_eq_getElem?] at hj
  simp [getField, hl, List.getElem?_map, hj]

theorem mirrorLink_decomp (v m : Str) :
    mirrorLink v m = downloadLink v ++ ("?use_mirror=".toList ++ m) := by
  have h : ("-binary.zip/download?use_mirror=".toList : Str)
      = "-binary.zip/download".toList ++ "?use_mirror=".toList := by decide
  simp [mirrorLink, downloadLink, h]

theorem mirrorLink_ne_downloadLink (v m : Str) : mirrorLink v m ≠ downloadLink v := by
  intro e
  have hlen := congrArg List.length e
  rw [mirrorLink_decomp] at hlen
  simp [List.length_append] at hlen

/-! ## Claim theorems -/

/-- C3: `GrinderExecutor.check` returns False ("not finished") whenever the
subprocess is still alive (`poll()` gives `None`); raises `RuntimeError`
(the ProcessError-class failure) when the process exited non-zero; raises
`RuntimeWarning` (the Data-class EmptyResultsWarning) when the process
exited 0 but the result log is missing or has zero size; and returns True
("finished") when the process exited 0 and the result log is non-empty. -/
theorem c3_check_outcomes (e : CheckEnv) (hk : e.kpiSet = true) :
    (e.retcode = none → GrinderExecutor.check e = .notFinished) ∧
    (∀ rc : Int, e.retcode = some rc → rc ≠ 0 →
      GrinderExecutor.check e =
        .runtimeError ("Grinder exited with non-zero code".toList)) ∧
    (e.retcode = some 0 → (e.kpiExists = false ∨ e.kpiSize = 0) →
      GrinderExecutor.check e =
        .runtimeWarning ("Empty results log, most likely the tool failed".toList)) ∧
    (e.retcode = some 0 → e.kpiExists = true → e.kpiSize ≠ 0 →
      GrinderExecutor.check e = .finished) := by
  refine ⟨fun h => ?_, fun rc h hrc => ?_, fun h h2 => ?_, fun h h2 h3 => ?_⟩
  · simp [GrinderExecutor.check, h]
  · simp [GrinderExecutor.check, h, hrc]
  · rcases h2 with h2 | h2 <;> simp [GrinderExecutor.check, h, hk, h2]
  · simp [GrinderExecutor.check, h, hk, h2, h3]

/-- Witness for C3 at a concrete environment: exit code 0 with an existing
non-empty result log polls as finished. -/
theorem c3_check_outcomes_witness :
    GrinderExecutor.check ⟨some 0, true, true, 5⟩ = .finished :=
  (c3_check_outcomes ⟨some 0, true, true, 5⟩ rfl).2.2.2 rfl rfl (by decide)

/-- C4 counterexample: a complete blank line (second field does not exist)
is not skipped — it raises `IndexError` and is fatal to the read: the valid
row after it in the same chunk is lost, no Sample is yielded. -/
theorem c4_counterexample :
    (DataLogReader._read (some (docHeader ++ '\n' :: '\n' :: (docRow ++ ['\n'])))
        initState).error = some indexErrorMsg ∧
    (DataLogReader._read (some (docHeader ++ '\n' :: '\n' :: (docRow ++ ['\n'])))
        initState).samples = [] := by
  constructor <;> decide

/-- C4 (amended): a complete line that does have a second
delimiter-separated field whose trimmed text is not a non-negative integer
string is skipped without yielding a Sample and without raising, and the
reader continues with the remaining lines; a complete line with fewer than
two fields instead raises `IndexError`. -/
theorem c4_skip_nondigit (idx : List (Str × Nat)) (buf l : Str)
    (rest : List RawLine) (f1 : Str)
    (hf : (splitOnChar ',' (strTrim (buf ++ l))).get? 1 = some f1)
    (hd : pyIsDigit (strTrim f1) = false) :
    parseDataLine idx (buf ++ l) = .skip ∧
    processLines idx buf ((l, true) :: rest) = processLines idx [] rest := by
  have hp : parseDataLine idx (buf ++ l) = .skip := by
    rw [List.get?_eq_getElem?] at hf
    simp [parseDataLine, parseFields, hf, hd]
  exact ⟨hp, by simp [processLines, hp]⟩

/-- Witness for C4 (amended): a stray repeat of the header line is skipped
and the reader continues. -/
theorem c4_skip_nondigit_witness :
    parseDataLine docIdx ([] ++ docHeader) = .skip ∧
    processLines docIdx [] [(docHeader, true)] = processLines docIdx [] [] :=
  c4_skip_nondigit docIdx [] docHeader [] ("Test time".toList) (by decide) (by decide)

/-- C5: while the file is missing (`none`) or empty (`some []`) a `_read`
call yields no samples, raises nothing, and leaves the state exactly as it
was, so a later call behaves as if the earlier not-ready calls had never
happened; concretely, reading `docFileMulti` after a not-ready call yields
all valid rows (the stray header repeat is skipped) with none lost or
duplicated. -/
theorem c5_not_ready (st : ReaderState) (h : st.opened = false) (f : Option Str) :
    DataLogReader._read none st = ⟨[], st, none⟩ ∧
    DataLogReader._read (some []) st = ⟨[], st, none⟩ ∧
    DataLogReader._read f ((DataLogReader._read none st).state) =
      DataLogReader._read f st ∧
    DataLogReader._read f ((DataLogReader._read (some []) st).state) =
      DataLogReader._read f st ∧
    DataLogReader._read (some docFileMulti)
        ((DataLogReader._read none initState).state) =
      ⟨[docSample, docSample2], ⟨true, docIdx, [], docFileMulti.length⟩, none⟩ := by
  have h1 : DataLogReader._read none st = ⟨[], st, none⟩ := by
    simp [DataLogReader._read, h]
  have h2 : DataLogReader._read (some []) st = ⟨[], st, none⟩ := by
    simp [DataLogReader._read, h]
  refine ⟨h1, h2, by rw [h1], by rw [h2], ?_⟩
  have h0 : DataLogReader._read none initState = ⟨[], initState, none⟩ := rfl
  rw [h0]
  have hraw : DataLogReader._read (some docFileMulti) initState =
      ⟨[⟨1, [], none, ((250 : Int) : ℚ) / 1000,
          ((10 : Int) : ℚ) / 1000 + ((5 : Int) : ℚ) / 1000,
          ((50 : Int) : ℚ) / 1000, "200".toList, none, []⟩,
        ⟨2, [], none, ((100 : Int) : ℚ) / 1000,
          ((1 : Int) : ℚ) / 1000 + ((2 : Int) : ℚ) / 1000,
          ((20 : Int) : ℚ) / 1000, "404".toList, some grinderErrMsg, []⟩],
       ⟨true, docIdx, [], docFileMulti.length⟩, none⟩ := rfl
  rw [hraw]
  have e1 : ((250 : Int) : ℚ) / 1000 = 1/4 := by norm_num
  have e2 : ((10 : Int) : ℚ) / 1000 + ((5 : Int) : ℚ) / 1000 = 3/200 := by norm_num
  have e3 : ((50 : Int) : ℚ) / 1000 = 1/20 := by norm_num
  have e4 : ((100 : Int) : ℚ) / 1000 = 1/10 := by norm_num
  have e5 : ((1 : Int) : ℚ) / 1000 + ((2 : Int) : ℚ) / 1000 = 3/1000 := by norm_num
  have e6 : ((20 : Int) : ℚ) / 1000 = 1/50 := by norm_num
  rw [e1, e2, e3, e4, e5, e6]
  rfl

/-- Witness for C5 at the freshly initialized reader. -/
theorem c5_not_ready_witness :
    DataLogReader._read none initState = ⟨[], initState, none⟩ ∧
    DataLogReader._read (some docFileMulti)
        ((DataLogReader._read none initState).state) =
      ⟨[docSample, docSample2], ⟨true, docIdx, [], docFileMulti.length⟩, none⟩ :=
  ⟨(c5_not_ready initState rfl none).1,
   (c5_not_ready initState rfl none).2.2.2.2⟩

/-- C7: `post_process` raises the empty-results `RuntimeWarning` exactly
when the reader is set and its buffer holds zero records; the exit code is
not an input of `post_process` at all, so this holds even after a `check`
call that reported finished; a header-only log (whose read yields no
samples) therefore fails at post_process. -/
theorem c7_post_process_empty (buffer : List Sample) (e : CheckEnv) :
    (buffer = [] → GrinderExecutor.post_process true buffer =
      some ("Empty results, most likely Grinder failed".toList)) ∧
    (GrinderExecutor.check e = .finished →
      GrinderExecutor.post_process true [] =
        some ("Empty results, most likely Grinder failed".toList)) ∧
    (buffer ≠ [] → GrinderExecutor.post_process true buffer = none) ∧
    GrinderExecutor.post_process true
        (DataLogReader._read (some headerOnlyFile) initState).samples =
      some ("Empty results, most likely Grinder failed".toList) := by
  refine ⟨fun hb => ?_, fun _ => ?_, fun hb => ?_, ?_⟩
  · simp [GrinderExecutor.post_process, hb]
  · simp [GrinderExecutor.post_process]
  · simp [GrinderExecutor.post_process, hb]
  · decide

/-- Witness for C7: an empty buffer raises the warning. -/
theorem c7_post_process_empty_witness :
    GrinderExecutor.post_process true [] =
      some ("Empty results, most likely Grinder failed".toList) :=
  (c7_post_process_empty [] ⟨some 0, true, true, 5⟩).1 rfl

/-- C10: with exit code 0 and an existing non-empty result log, `check`
returns finished — poll-time empty-results detection is by raw file size
only — even though the log content (header only) parses to zero samples;
that zero-parsed-records condition surfaces at `post_process` through the
reader's empty buffer. -/
theorem c10_finished_header_only (e : CheckEnv)
    (h0 : e.retcode = some 0) (hset : e.kpiSet = true)
    (hex : e.kpiExists = true) (hsz : e.kpiSize ≠ 0) :
    GrinderExecutor.check e = .finished ∧
    headerOnlyFile.length ≠ 0 ∧
    (DataLogReader._read (some headerOnlyFile) initState).samples = [] ∧
    GrinderExecutor.post_process true
        (DataLogReader._read (some headerOnlyFile) initState).samples =
      some ("Empty results, most likely Grinder failed".toList) := by
  refine ⟨?_, by decide, by decide, by decide⟩
  simp [GrinderExecutor.check, h0, hset, hex, hsz]

/-- Witness for C10 with the kpi size taken from the header-only file. -/
theorem c10_finished_header_only_witness :
    GrinderExecutor.check ⟨some 0, true, true, headerOnlyFile.length⟩ = .finished ∧
    headerOnlyFile.length ≠ 0 ∧
    (DataLogReader._read (some headerOnlyFile) initState).samples = [] ∧
    GrinderExecutor.post_process true
        (DataLogReader._read (some headerOnlyFile) initState).samples =
      some ("Empty results, most likely Grinder failed".toList) :=
  c10_finished_header_only ⟨some 0, true, true, headerOnlyFile.length⟩
    rfl rfl rfl (by decide)

/-- Auxiliary: a chunk with no terminator is only buffered. -/
theorem processLines_buffer_only (idx : List (Str × Nat)) (A : Str)
    (h : '\n' ∉ A) : processLines idx [] (splitRawC A) = ([], A, none) := by
  rcases eq_or_ne A [] with rfl | hne
  · rfl
  · rw [splitRawC_noterm A h hne]
    simp [processLines]

/-- C1: under the documented header, a complete row that passes the
second-field gate and whose numeric fields parse yields exactly the Sample
with timestamp = start-time ÷ 1000 truncated, response_time = test-time ÷
1000, latency = time-to-first-byte ÷ 1000, connect_time = (resolve +
establish) ÷ 1000, response_code = the trimmed code field, and a non-none
error exactly when the Errors field is a non-zero integer; in particular
the documented row `1000,250,50,200,10,5,0` read through `_read` yields
`docSample` (timestamp 1, response_time 1/4, latency 1/20, connect_time
3/200, response code "200", no error). -/
theorem c1_sample_field_mapping :
    (∀ (line s0 s1 s2 s3 s4 s5 s6 : Str) (z0 z1 z2 z4 z5 z6 : Int),
      splitOnChar ',' (strTrim line) = [s0, s1, s2, s3, s4, s5, s6] →
      pyIsDigit (strTrim s1) = true →
      pyInt s0 = some z0 → pyInt s1 = some z1 → pyInt s2 = some z2 →
      pyInt s4 = some z4 → pyInt s5 = some z5 → pyInt s6 = some z6 →
      parseDataLine docIdx line =
        .sample { t_stamp := Int.tdiv z0 1000, label := [], concur := none,
                  r_time := (z1 : ℚ) / 1000,
                  con_time := ((z4 : ℚ) + (z5 : ℚ)) / 1000,
                  latency := (z2 : ℚ) / 1000,
                  r_code := strTrim s3,
                  error := if z6 ≠ 0 then some grinderErrMsg else none,
                  extra := [] }) ∧
    DataLogReader._read (some docFile) initState =
      ⟨[docSample], ⟨true, docIdx, [], docFile.length⟩, none⟩ := by
  constructor
  · intro line s0 s1 s2 s3 s4 s5 s6 z0 z1 z2 z4 z5 z6
      hsplit hgate h0 h1 h2 h4 h5 h6
    have l0 : lookupStr docIdx colStart = some 0 := by decide
    have l1 : lookupStr docIdx colTest = some 1 := by decide
    have l2 : lookupStr docIdx colTTFB = some 2 := by decide
    have l3 : lookupStr docIdx colCode = some 3 := by decide
    have l4 : lookupStr docIdx colResolve = some 4 := by decide
    have l5 : lookupStr docIdx colConn = some 5 := by decide
    have l6 : lookupStr docIdx colErrors = some 6 := by decide
    rw [parseDataLine, hsplit]
    simp [parseFields, getIntField, getField, l0, l1, l2, l3, l4, l5, l6,
      hgate, h0, h1, h2, h4, h5, h6, div_add_div_same]
  · have hraw : DataLogReader._read (some docFile) initState =
        ⟨[⟨1, [], none, ((250 : Int) : ℚ) / 1000,
            ((10 : Int) : ℚ) / 1000 + ((5 : Int) : ℚ) / 1000,
            ((50 : Int) : ℚ) / 1000, "200".toList, none, []⟩],
         ⟨true, docIdx, [], docFile.length⟩, none⟩ := rfl
    rw [hraw]
    have e1 : ((250 : Int) : ℚ) / 1000 = 1/4 := by norm_num
    have e2 : ((10 : Int) : ℚ) / 1000 + ((5 : Int) : ℚ) / 1000 = 3/200 := by norm_num
    have e3 : ((50 : Int) : ℚ) / 1000 = 1/20 := by norm_num
    rw [e1, e2, e3]
    rfl

/-- Witness for C1: the documented row discharges every hypothesis of the
field-mapping half. -/
theorem c1_sample_field_mapping_witness :
    parseDataLine docIdx docRow =
      .sample { t_stamp := Int.tdiv 1000 1000, label := [], concur := none,
                r_time := ((250 : Int) : ℚ) / 1000,
                con_time := (((10 : Int) : ℚ) + ((5 : Int) : ℚ)) / 1000,
                latency := ((50 : Int) : ℚ) / 1000,
                r_code := strTrim ("200".toList),
                error := if (0 : Int) ≠ 0 then some grinderErrMsg else none,
                extra := [] } :=
  c1_sample_field_mapping.1 docRow
    ("1000".toList) ("250".toList) ("50".toList) ("200".toList)
    ("10".toList) ("5".toList) ("0".toList)
    1000 250 50 10 5 0
    (by decide) (by decide) rfl rfl rfl rfl rfl rfl

/-- C2: for any data line `L` split at any point `k`, reading the file with
only the non-terminated prefix present and then reading again once the line
is completed yields the same samples, the same final reader state and no
error, exactly as reading the completed file in one call: the fragment is
buffered in `partial_buffer`, never parsed, dropped or emitted twice.  The
hypothesis excludes the degenerate files whose header line itself raises. -/
theorem c2_partial_line_buffering (H L : Str) (k : Nat)
    (hH : '\n' ∉ H) (hL : '\n' ∉ L)
    (hok : (DataLogReader._read (some (H ++ '\n' :: (L ++ ['\n']))) initState).error
      = none) :
    (DataLogReader._read (some (H ++ '\n' :: L.take k)) initState).error = none ∧
    (DataLogReader._read (some (H ++ '\n' :: L.take k)) initState).samples ++
      (DataLogReader._read (some (H ++ '\n' :: (L ++ ['\n'])))
          ((DataLogReader._read (some (H ++ '\n' :: L.take k)) initState).state)).samples
      = (DataLogReader._read (some (H ++ '\n' :: (L ++ ['\n']))) initState).samples ∧
    (DataLogReader._read (some (H ++ '\n' :: (L ++ ['\n'])))
        ((DataLogReader._read (some (H ++ '\n' :: L.take k)) initState).state)).state
      = (DataLogReader._read (some (H ++ '\n' :: (L ++ ['\n']))) initState).state ∧
    (DataLogReader._read (some (H ++ '\n' :: (L ++ ['\n'])))
        ((DataLogReader._read (some (H ++ '\n' :: L.take k)) initState).state)).error
      = none := by
  set A := L.take k with hAdef
  set B := L.drop k with hBdef
  have hAB : A ++ B = L := List.take_append_drop k L
  have hA : '\n' ∉ A := fun m => hL (List.take_subset k L m)
  have hB : '\n' ∉ B := fun m => hL (List.drop_subset k L m)
  have hbufA := processLines_buffer_only (buildIdx H) A hA
  have hflfull : firstLine (H ++ '\n' :: (L ++ ['\n'])) = H := firstLine_append _ _ hH
  have hsrfull : splitRawC (H ++ '\n' :: (L ++ ['\n'])) = (H, true) :: [(L, true)] := by
    have hc : (L ++ ['\n'] : Str) = L ++ '\n' :: [] := rfl
    rw [splitRawC_append_term _ _ hH, hc, splitRawC_append_term _ _ hL]
    rfl
  have hne2 : (H ++ '\n' :: (L ++ ['\n'])) ≠ ([] : Str) := by simp
  have hfull : DataLogReader._read (some (H ++ '\n' :: (L ++ ['\n']))) initState =
      ⟨(processLines (buildIdx H) [] ((H, true) :: [(L, true)])).1,
       ⟨true, buildIdx H,
        (processLines (buildIdx H) [] ((H, true) :: [(L, true)])).2.1,
        (H ++ '\n' :: (L ++ ['\n'])).length⟩,
       (processLines (buildIdx H) [] ((H, true) :: [(L, true)])).2.2⟩ := by
    simp [DataLogReader._read, initState, hne2, doRead, hflfull, hsrfull]
  have hne1 : (H ++ '\n' :: A) ≠ ([] : Str) := by simp
  have hfl1 : firstLine (H ++ '\n' :: A) = H := firstLine_append _ _ hH
  have hsr1 : splitRawC (H ++ '\n' :: A) = (H, true) :: splitRawC A :=
    splitRawC_append_term _ _ hH
  have h1 : DataLogReader._read (some (H ++ '\n' :: A)) initState =
      ⟨(processLines (buildIdx H) [] ((H, true) :: splitRawC A)).1,
       ⟨true, buildIdx H,
        (processLines (buildIdx H) [] ((H, true) :: splitRawC A)).2.1,
        (H ++ '\n' :: A).length⟩,
       (processLines (buildIdx H) [] ((H, true) :: splitRawC A)).2.2⟩ := by
    simp [DataLogReader._read, initState, hne1, doRead, hfl1, hsr1]
  have hlenA : A.length ≤ L.length := by
    rw [hAdef, List.length_take]
    exact Nat.min_le_right k L.length
  have hdrop : List.drop A.length (L ++ ['\n']) = B ++ ['\n'] := by
    rw [List.drop_append_of_le_length hlenA]
    congr 1
    rw [hAdef, hBdef, List.length_take]
    rcases Nat.le_total k L.length with hk | hk
    · rw [Nat.min_eq_left hk]
    · rw [Nat.min_eq_right hk, List.drop_length, List.drop_eq_nil_of_le hk]
  have hsr2 : splitRawC (B ++ ['\n']) = [(B, true)] := by
    have hc : (B ++ ['\n'] : Str) = B ++ '\n' :: [] := rfl
    rw [hc, splitRawC_append_term _ _ hB]
    rfl
  have h2 : DataLogReader._read (some (H ++ '\n' :: (L ++ ['\n'])))
      ⟨true, buildIdx H, A, (H ++ '\n' :: A).length⟩ =
      ⟨(processLines (buildIdx H) A [(B, true)]).1,
       ⟨true, buildIdx H, (processLines (buildIdx H) A [(B, true)]).2.1,
        (H ++ '\n' :: (L ++ ['\n'])).length⟩,
       (processLines (buildIdx H) A [(B, true)]).2.2⟩ := by
    simp [DataLogReader._read, doRead, hdrop, hsr2]
  cases hpH : parseDataLine (buildIdx H) H with
  | exn e =>
    rw [hfull] at hok
    simp [processLines, hpH] at hok
  | skip =>
    have pl1 : processLines (buildIdx H) [] ((H, true) :: splitRawC A)
        = ([], A, none) := by
      simp [processLines, hpH, hbufA]
    have h2' : DataLogReader._read (some (H ++ '\n' :: (L ++ ['\n'])))
        ((DataLogReader._read (some (H ++ '\n' :: A)) initState).state) =
        ⟨(processLines (buildIdx H) A [(B, true)]).1,
         ⟨true, buildIdx H, (processLines (buildIdx H) A [(B, true)]).2.1,
          (H ++ '\n' :: (L ++ ['\n'])).length⟩,
         (processLines (buildIdx H) A [(B, true)]).2.2⟩ := by
      rw [h1]; simp only [pl1]; exact h2
    cases hpL : parseDataLine (buildIdx H) L with
    | exn e =>
      rw [hfull] at hok
      simp [processLines, hpH, hpL] at hok
    | skip =>
      have pl2 : processLines (buildIdx H) A [(B, true)] = ([], [], none) := by
        simp [processLines, hAB, hpL]
      have plfull : processLines (buildIdx H) [] ((H, true) :: [(L, true)])
          = ([], [], none) := by
        simp [processLines, hpH, hpL]
      refine ⟨?_, ?_, ?_, ?_⟩
      · rw [h1]; simp [pl1]
      · rw [h2', h1, hfull]; simp [pl1, pl2, plfull]
      · rw [h2', hfull]; simp [pl2, plfull]
      · rw [h2']; simp [pl2]
    | sample s' =>
      have pl2 : processLines (buildIdx H) A [(B, true)] = ([s'], [], none) := by
        simp [processLines, hAB, hpL]
      have plfull : processLines (buildIdx H) [] ((H, true) :: [(L, true)])
          = ([s'], [], none) := by
        simp [processLines, hpH, hpL]
      refine ⟨?_, ?_, ?_, ?_⟩
      · rw [h1]; simp [pl1]
      · rw [h2', h1, hfull]; simp [pl1, pl2, plfull]
      · rw [h2', hfull]; simp [pl2, plfull]
      · rw [h2']; simp [pl2]
  | sample s =>
    have pl1 : processLines (buildIdx H) [] ((H, true) :: splitRawC A)
        = ([s], A, none) := by
      simp [processLines, hpH, hbufA]
    have h2' : DataLogReader._read (some (H ++ '\n' :: (L ++ ['\n'])))
        ((DataLogReader._read (some (H ++ '\n' :: A)) initState).state) =
        ⟨(processLines (buildIdx H) A [(B, true)]).1,
         ⟨true, buildIdx H, (processLines (buildIdx H) A [(B, true)]).2.1,
          (H ++ '\n' :: (L ++ ['\n'])).length⟩,
         (processLines (buildIdx H) A [(B, true)]).2.2⟩ := by
      rw [h1]; simp only [pl1]; exact h2
    cases hpL : parseDataLine (buildIdx H) L with
    | exn e =>
      rw [hfull] at hok
      simp [processLines, hpH, hpL] at hok
    | skip =>
      have pl2 : processLines (buildIdx H) A [(B, true)] = ([], [], none) := by
        simp [processLines, hAB, hpL]
      have plfull : processLines (buildIdx H) [] ((H, true) :: [(L, true)])
          = ([s], [], none) := by
        simp [processLines, hpH, hpL]
      refine ⟨?_, ?_, ?_, ?_⟩
      · rw [h1]; simp [pl1]
      · rw [h2', h1, hfull]; simp [pl1, pl2, plfull]
      · rw [h2', hfull]; simp [pl2, plfull]
      · rw [h2']; simp [pl2]
    | sample s' =>
      have pl2 : processLines (buildIdx H) A [(B, true)] = ([s'], [], none) := by
        simp [processLines, hAB, hpL]
      have plfull : processLines (buildIdx H) [] ((H, true) :: [(L, true)])
          = ([s, s'], [], none) := by
        simp [processLines, hpH, hpL]
      refine ⟨?_, ?_, ?_, ?_⟩
      · rw [h1]; simp [pl1]
      · rw [h2', h1, hfull]; simp [pl1, pl2, plfull]
      · rw [h2', hfull]; simp [pl2, plfull]
      · rw [h2']; simp [pl2]

/-- Witness for C2: the documented data line split after its first five
characters. -/
theorem c2_partial_line_buffering_witness :
    (DataLogReader._read (some (docHeader ++ '\n' :: docRow.take 5)) initState).error
      = none ∧
    (DataLogReader._read (some (docHeader ++ '\n' :: docRow.take 5)) initState).samples ++
      (DataLogReader._read (some (docHeader ++ '\n' :: (docRow ++ ['\n'])))
          ((DataLogReader._read (some (docHeader ++ '\n' :: docRow.take 5))
            initState).state)).samples
      = (DataLogReader._read (some (docHeader ++ '\n' :: (docRow ++ ['\n'])))
          initState).samples :=
  ⟨(c2_partial_line_buffering docHeader docRow 5 (by decide) (by decide) (by decide)).1,
   (c2_partial_line_buffering docHeader docRow 5 (by decide) (by decide) (by decide)).2.1⟩

/-- C6 counterexample: the claim says each list-item identifier token is
substituted as the `use_mirror` parameter, but the character-set semantics
of `str.strip` mangle identifiers that start or end with characters of the
strip sets: the page `<li id="deb">` produces `use_mirror=eb`, not
`use_mirror=deb`. -/
theorem c6_counterexample :
    GrinderMirrorsManager._parse_mirrors (some pageDeb) ver311 =
      [mirrorLink ver311 ("eb".toList), downloadLink ver311] ∧
    mirrorLink ver311 ("eb".toList) ≠ mirrorLink ver311 ("deb".toList) := by
  constructor <;> decide

/-- C6 (amended): `_parse_mirrors` builds one mirror URL per list-item
element found (substituting the element text stripped by character set,
which can differ from the raw identifier), appends the canonical download
URL last, never duplicates it (every mirror URL strictly extends it), and
returns exactly the one-element canonical list when the page is unavailable
or has no matching elements. -/
theorem c6_mirror_list_shape (page : Option Str) (v : Str) :
    GrinderMirrorsManager._parse_mirrors page v =
      ((pageTokens page).map (fun tok => mirrorLink v (liTokenValue tok)))
        ++ [downloadLink v] ∧
    (GrinderMirrorsManager._parse_mirrors page v).getLast?
      = some (downloadLink v) ∧
    downloadLink v ∉ (GrinderMirrorsManager._parse_mirrors page v).dropLast ∧
    (GrinderMirrorsManager._parse_mirrors page v).length
      = (pageTokens page).length + 1 ∧
    (page = none →
      GrinderMirrorsManager._parse_mirrors page v = [downloadLink v]) := by
  have hmem : downloadLink v ∉
      (pageTokens page).map (fun tok => mirrorLink v (liTokenValue tok)) := by
    intro hm
    obtain ⟨tok, _, he⟩ := List.mem_map.mp hm
    exact mirrorLink_ne_downloadLink v _ he
  have hmain : GrinderMirrorsManager._parse_mirrors page v =
      ((pageTokens page).map (fun tok => mirrorLink v (liTokenValue tok)))
        ++ [downloadLink v] := by
    cases page with
    | none => simp [GrinderMirrorsManager._parse_mirrors, pageTokens]
    | some p =>
      have hmem' : downloadLink v ∉
          (findLiTokens p).map (fun tok => mirrorLink v (liTokenValue tok)) := by
        simpa [pageTokens] using hmem
      simp [GrinderMirrorsManager._parse_mirrors, pageTokens, hmem']
  refine ⟨hmain, ?_, ?_, ?_, ?_⟩
  · rw [hmain, List.getLast?_concat]
  · rw [hmain, List.dropLast_concat]
    exact hmem
  · rw [hmain]
    simp
  · intro hp
    subst hp
    simpa [pageTokens] using hmain

/-- Witness for C6 at a two-token page: three URLs, canonical last. -/
theorem c6_mirror_list_shape_witness :
    (GrinderMirrorsManager._parse_mirrors (some pageTwo) ver311).length
      = (pageTokens (some pageTwo)).length + 1 ∧
    (pageTokens (some pageTwo)).length = 2 ∧
    (GrinderMirrorsManager._parse_mirrors (some pageTwo) ver311).getLast?
      = some (downloadLink ver311) :=
  ⟨(c6_mirror_list_shape (some pageTwo) ver311).2.2.2.1, by decide,
   (c6_mirror_list_shape (some pageTwo) ver311).2.1⟩

/-- C8 counterexample: the gate at line 371 addresses `fields[1]` by
position, not through the header map, so the claimed
permutation-invariance fails: the same logical row (response code `OK`)
yields one Sample under the documented column order and zero Samples when
the response-code column is moved to the second position. -/
theorem c8_counterexample :
    (DataLogReader._read (some fileCodeOkDoc) initState).samples.length = 1 ∧
    (DataLogReader._read (some fileCodeOkPerm) initState).samples.length = 0 := by
  constructor <;> decide

/-- C8 (amended): every Sample field is addressed by column name through
the header-index map built from the trimmed first line, so for any header
that lists the required columns in any order (no duplicates, names already
trimmed), a row laid out by that order produces a Sample that depends only
on the per-column values — provided the row's positional second field, the
only positionally addressed datum, passes the digit gate. -/
theorem c8_field_addressing_by_name (header row : Str) (hs : List Str)
    (v : Str → Str) (c1 : Str) (z0 z1 z2 z4 z5 z6 : Int)
    (hhs : splitOnChar ',' (strTrim header) = hs)
    (hrow : splitOnChar ',' (strTrim row) = hs.map v)
    (ht : ∀ s ∈ hs, strTrim s = s) (hd : hs.Nodup)
    (m0 : colStart ∈ hs) (m1 : colTest ∈ hs) (m2 : colTTFB ∈ hs)
    (m3 : colCode ∈ hs) (m4 : colResolve ∈ hs) (m5 : colConn ∈ hs)
    (m6 : colErrors ∈ hs)
    (h1 : hs.get? 1 = some c1) (hgate : pyIsDigit (strTrim (v c1)) = true)
    (hz0 : pyInt (v colStart) = some z0) (hz1 : pyInt (v colTest) = some z1)
    (hz2 : pyInt (v colTTFB) = some z2) (hz4 : pyInt (v colResolve) = some z4)
    (hz5 : pyInt (v colConn) = some z5) (hz6 : pyInt (v colErrors) = some z6) :
    parseDataLine (buildIdx header) row =
      .sample { t_stamp := Int.tdiv z0 1000, label := [], concur := none,
                r_time := (z1 : ℚ) / 1000,
                con_time := (z4 : ℚ) / 1000 + (z5 : ℚ) / 1000,
                latency := (z2 : ℚ) / 1000,
                r_code := strTrim (v colCode),
                error := if z6 ≠ 0 then some grinderErrMsg else none,
                extra := [] } := by
  have g0 := getField_buildIdx_map hs v colStart ht hd m0
  have g1 := getField_buildIdx_map hs v colTest ht hd m1
  have g2 := getField_buildIdx_map hs v colTTFB ht hd m2
  have g3 := getField_buildIdx_map hs v colCode ht hd m3
  have g4 := getField_buildIdx_map hs v colResolve ht hd m4
  have g5 := getField_buildIdx_map hs v colConn ht hd m5
  have g6 := getField_buildIdx_map hs v colErrors ht hd m6
  have hf1 : (hs.map v).get? 1 = some (v c1) := by
    rw [List.get?_map, h1]
    rfl
  rw [parseDataLine, hrow]
  show parseFields (buildIdx header) (hs.map v) = _
  rw [buildIdx, hhs]
  rw [List.get?_eq_getElem?] at hf1
  simp [parseFields, hf1, hgate, getIntField,
    g0, g1, g2, g3, g4, g5, g6, hz0, hz1, hz2, hz4, hz5, hz6]

/-- Witness for C8 (amended): the permuted header with an all-numeric row
produces the same Sample values as the documented order would. -/
theorem c8_field_addressing_by_name_witness :
    parseDataLine (buildIdx permHeader) ("1000,200,250,50,10,5,0".toList) =
      .sample { t_stamp := Int.tdiv 1000 1000, label := [], concur := none,
                r_time := ((250 : Int) : ℚ) / 1000,
                con_time := ((10 : Int) : ℚ) / 1000 + ((5 : Int) : ℚ) / 1000,
                latency := ((50 : Int) : ℚ) / 1000,
                r_code := strTrim ("200".toList),
                error := if (0 : Int) ≠ 0 then some grinderErrMsg else none,
                extra := [] } :=
  c8_field_addressing_by_name permHeader ("1000,200,250,50,10,5,0".toList)
    [colStart, colCode, colTest, colTTFB, colResolve, colConn, colErrors]
    (fun n =>
      if n = colStart then "1000".toList
      else if n = colCode then "200".toList
      else if n = colTest then "250".toList
      else if n = colTTFB then "50".toList
      else if n = colResolve then "10".toList
      else if n = colConn then "5".toList
      else "0".toList)
    colCode 1000 250 50 10 5 0
    (by decide) (by decide) (by decide) (by decide)
    (by decide) (by decide) (by decide) (by decide) (by decide) (by decide)
    (by decide) rfl (by decide)
    (by decide) (by decide) (by decide) (by decide) (by decide) (by decide)

/-- C9 counterexample: when the base properties file itself carries a
`grinder.script` line, the artifact written by `prepare` contains two
`grinder.script` properties, not exactly one. -/
theorem c9_counterexample :
    (GrinderExecutor.preparedArtifact inpDirty).map (fun s => (findGs s).length)
      = some 2 := by decide

/-! ## Additional text-algebra lemmas for the configuration artifact -/

theorem splitOnChar_ne_nil (d : Char) (s : Str) : splitOnChar d s ≠ [] := by
  cases s with
  | nil => simp [splitOnChar]
  | cons c cs =>
    by_cases hc : c = d
    · simp [splitOnChar, hc]
    · simp only [splitOnChar, hc, if_false]
      cases splitOnChar d cs <;> simp

theorem splitOnChar_append_cons (d : Char) (x y : Str) :
    splitOnChar d (x ++ d :: y) = splitOnChar d x ++ splitOnChar d y := by
  induction x with
  | nil => simp [splitOnChar]
  | cons c cs ih =>
    by_cases hc : c = d
    · subst hc
      simp [splitOnChar, ih]
    · simp only [List.cons_append, splitOnChar, hc, if_false, List.append_eq]
      rw [ih]
      cases hsc : splitOnChar d cs with
      | nil => exact absurd hsc (splitOnChar_ne_nil d cs)
      | cons f rest => simp [hsc]

theorem splitOnChar_joinLines (ls : List Str) (h : ∀ l ∈ ls, '\n' ∉ l) :
    splitOnChar '\n' (joinLines ls) = ls ++ [[]] := by
  induction ls with
  | nil => rfl
  | cons l ls ih =>
    have hl : '\n' ∉ l := h l (List.mem_cons_self l ls)
    have h' : ∀ m ∈ ls, '\n' ∉ m := fun m hm => h m (List.mem_cons_of_mem _ hm)
    rw [joinLines, splitOnChar_append '\n' l (joinLines ls) hl, ih h']
    rfl

theorem joinLines_append (xs ys : List Str) :
    joinLines (xs ++ ys) = joinLines xs ++ joinLines ys := by
  induction xs with
  | nil => rfl
  | cons l ls ih => simp [joinLines, ih]

theorem endsNL_append (a b : Str) (ha : endsNL a) (hb : endsNL b) :
    endsNL (a ++ b) := by
  rcases hb with rfl | ⟨x, rfl⟩
  · simpa using ha
  · exact Or.inr ⟨a ++ x, by simp⟩

theorem write_base_props_endsNL (bpf : Option (Str × Str))
    (bprops : List (Str × Str)) : endsNL (write_base_props bpf bprops) := by
  unfold write_base_props
  apply endsNL_append
  · cases bpf with
    | none => exact Or.inl rfl
    | some pc =>
      refine Or.inr ⟨"# Base Properies File Start: ".toList ++ pc.1 ++ "\n".toList
        ++ pc.2 ++ "# Base Properies File End: ".toList ++ pc.1 ++ ['\n'], ?_⟩
      have hd : ("\n\n".toList : Str) = ['\n'] ++ ['\n'] := by decide
      simp [hd]
  · cases bprops with
    | nil => exact Or.inl rfl
    | cons kv rest =>
      refine Or.inr ⟨"# Base Properies Start\n".toList
        ++ ((kv :: rest).map (fun kv => kv.1 ++ "=".toList ++ kv.2 ++ "\n".toList)).flatten
        ++ "# Base Properies End\n".toList, ?_⟩
      have hd : ("# Base Properies End\n\n".toList : Str)
          = "# Base Properies End\n".toList ++ ['\n'] := by decide
      simp [hd]

theorem write_scenario_props_endsNL (spf : Option (Str × Str))
    (sprops : List (Str × Str)) : endsNL (write_scenario_props spf sprops) := by
  unfold write_scenario_props
  apply endsNL_append
  · cases spf with
    | none => exact Or.inl rfl
    | some pc =>
      refine Or.inr ⟨"# Script Properies File Start: ".toList ++ pc.1 ++ "\n".toList
        ++ pc.2 ++ "# Script Properies File End: ".toList ++ pc.1 ++ ['\n'], ?_⟩
      have hd : ("\n\n".toList : Str) = ['\n'] ++ ['\n'] := by decide
      simp [hd]
  · cases sprops with
    | nil => exact Or.inl rfl
    | cons kv rest =>
      refine Or.inr ⟨"# Scenario Properies Start\n".toList
        ++ ((kv :: rest).map (fun kv => kv.1 ++ "=".toList ++ kv.2 ++ "\n".toList)).flatten
        ++ "# Scenario Properies End\n".toList, ?_⟩
      have hd : ("# Scenario Properies End\n\n".toList : Str)
          = "# Scenario Properies End\n".toList ++ ['\n'] := by decide
      simp [hd]

theorem isPrefixOf_append_left (p a x : Str) (h : p.length ≤ a.length) :
    p.isPrefixOf (a ++ x) = p.isPrefixOf a := by
  induction p generalizing a with
  | nil => simp [List.isPrefixOf]
  | cons c p' ih =>
    cases a with
    | nil => simp at h
    | cons b a' =>
      simp only [List.cons_append, List.isPrefixOf, List.append_eq]
      rw [ih a' (Nat.le_of_succ_le_succ h)]

theorem isScriptPropLine_append_false (a x : Str)
    (h9 : 9 ≤ a.length)
    (hp : ("grinder.s".toList).isPrefixOf a = false) :
    isScriptPropLine (a ++ x) = false := by
  rw [isScriptPropLine]
  by_contra hfull
  have hfull' : ("grinder.script=".toList).isPrefixOf (a ++ x) = true := by
    simpa using hfull
  have hpp : ("grinder.s".toList) <+: ("grinder.script=".toList) := by decide
  have h2 : ("grinder.s".toList) <+: (a ++ x) :=
    hpp.trans (List.isPrefixOf_iff_prefix.mp hfull')
  have h3 : ("grinder.s".toList).isPrefixOf (a ++ x) = true :=
    List.isPrefixOf_iff_prefix.mpr h2
  have h9' : ("grinder.s".toList).length ≤ a.length := by
    have : ("grinder.s".toList).length = 9 := by decide
    omega
  rw [isPrefixOf_append_left _ _ _ h9'] at h3
  rw [hp] at h3
  cases h3

theorem isScriptPropLine_self_append (x : Str) :
    isScriptPropLine ("grinder.script=".toList ++ x) = true := by
  rw [isScriptPropLine]
  exact List.isPrefixOf_iff_prefix.mpr (List.prefix_append _ _)

theorem digitChar_ne_newline (n : Nat) : Nat.digitChar n ≠ '\n' := by
  by_cases h0 : n = 0
  · subst h0; decide
  by_cases h1 : n = 1
  · subst h1; decide
  by_cases h2 : n = 2
  · subst h2; decide
  by_cases h3 : n = 3
  · subst h3; decide
  by_cases h4 : n = 4
  · subst h4; decide
  by_cases h5 : n = 5
  · subst h5; decide
  by_cases h6 : n = 6
  · subst h6; decide
  by_cases h7 : n = 7
  · subst h7; decide
  by_cases h8 : n = 8
  · subst h8; decide
  by_cases h9 : n = 9
  · subst h9; decide
  by_cases h10 : n = 10
  · subst h10; decide
  by_cases h11 : n = 11
  · subst h11; decide
  by_cases h12 : n = 12
  · subst h12; decide
  by_cases h13 : n = 13
  · subst h13; decide
  by_cases h14 : n = 14
  · subst h14; decide
  by_cases h15 : n = 15
  · subst h15; decide
  unfold Nat.digitChar
  rw [if_neg h0, if_neg h1, if_neg h2, if_neg h3, if_neg h4, if_neg h5,
    if_neg h6, if_neg h7, if_neg h8, if_neg h9, if_neg h10, if_neg h11,
    if_neg h12, if_neg h13, if_neg h14, if_neg h15]
  decide

theorem toDigitsCore_no_newline (fuel : Nat) :
    ∀ (n : Nat) (ds : List Char), (∀ c ∈ ds, c ≠ '\n') →
      ∀ c ∈ Nat.toDigitsCore 10 fuel n ds, c ≠ '\n' := by
  induction fuel with
  | zero =>
    intro n ds h c hc
    exact h c hc
  | succ fuel ih =>
    intro n ds h c hc
    simp only [Nat.toDigitsCore] at hc
    split at hc
    · rcases List.mem_cons.mp hc with rfl | hm
      · exact digitChar_ne_newline _
      · exact h c hm
    · refine ih (n / 10) (Nat.digitChar (n % 10) :: ds) ?_ c hc
      intro c' hc'
      rcases List.mem_cons.mp hc' with rfl | hm
      · exact digitChar_ne_newline _
      · exact h c' hm

theorem natStr_no_newline (n : Nat) : '\n' ∉ natStr n := by
  intro hmem
  rw [show natStr n = Nat.toDigitsCore 10 (n + 1) n [] from rfl] at hmem
  exact toDigitsCore_no_newline (n + 1) n [] (by simp) '\n' hmem rfl

theorem intStr_no_newline (z : Int) : '\n' ∉ intStr z := by
  cases z with
  | ofNat m =>
    intro hmem
    exact natStr_no_newline m
      (by rw [show natStr m = intStr (Int.ofNat m) from rfl]; exact hmem)
  | negSucc m =>
    intro hmem
    rw [show intStr (Int.negSucc m) = '-' :: Nat.toDigitsCore 10 (m + 2) (m + 1) []
      from rfl] at hmem
    rcases List.mem_cons.mp hmem with he | hm
    · cases he
    · exact toDigitsCore_no_newline (m + 2) (m + 1) [] (by simp) '\n' hm rfl

theorem findGs_ne_nil (s : Str) (h : ∃ a b, s = a ++ (gsPat ++ b)) :
    findGs s ≠ [] := by
  induction s with
  | nil =>
    obtain ⟨a, b, hab⟩ := h
    have hg : gsPat ≠ [] := by decide
    rcases List.append_eq_nil.mp hab.symm with ⟨-, h2⟩
    exact absurd (List.append_eq_nil.mp h2).1 hg
  | cons c cs ih =>
    show findGsAux (c :: cs).length (c :: cs) ≠ []
    rw [List.length_cons, findGsAux]
    split
    · simp
    · next hp =>
      obtain ⟨a, b, hab⟩ := h
      cases a with
      | nil =>
        exfalso
        apply hp
        rw [List.nil_append] at hab
        rw [hab]
        exact List.isPrefixOf_iff_prefix.mpr (List.prefix_append _ _)
      | cons a0 a' =>
        have hcs : cs = a' ++ (gsPat ++ b) := by
          have := hab
          simp only [List.cons_append] at this
          exact (List.cons.injEq _ _ _ _ ▸ this).2
        exact ih ⟨a', b, hcs⟩

theorem write_bzt_props_eq_joinLines (script dir : Str) (load : LoadProfile) :
    write_bzt_props script dir load = joinLines (bztLines script dir load) := by
  have d1 : ("# BZT Properies Start\n".toList : Str)
      = "# BZT Properies Start".toList ++ ['\n'] := by decide
  have d2 : ("grinder.hostID=grinder-bzt\n".toList : Str)
      = "grinder.hostID=grinder-bzt".toList ++ ['\n'] := by decide
  have d3 : ("grinder.processIncrement=1\n".toList : Str)
      = "grinder.processIncrement=1".toList ++ ['\n'] := by decide
  have d4 : ("# BZT Properies End\n".toList : Str)
      = "# BZT Properies End".toList ++ ['\n'] := by decide
  have d5 : ("\n".toList : Str) = ['\n'] := by decide
  by_cases h1 : load.concurrency = 0
  · simp [write_bzt_props, bztLines, loadLines, joinLines, h1,
      d1, d2, d3, d4, d5]
  · by_cases h2 : load.ramp_up = 0 <;> by_cases h3 : load.duration = 0 <;>
      simp [write_bzt_props, bztLines, loadLines, joinLines, joinLines_append,
        h1, h2, h3, d1, d2, d3, d4, d5]

theorem bztLines_no_newline (script dir : Str) (load : LoadProfile)
    (hs : '\n' ∉ script) (hd : '\n' ∉ dir) :
    ∀ l ∈ bztLines script dir load, '\n' ∉ l := by
  intro l hl
  simp only [bztLines, List.mem_append, List.mem_cons, List.not_mem_nil,
    or_false] at hl
  rcases hl with ((rfl | rfl | rfl | rfl) | hload) | rfl
  · decide
  · decide
  · intro hm
    rcases List.mem_append.mp hm with h | h
    · exact absurd h (by decide)
    · exact hs (by simpa [realpath] using h)
  · intro hm
    rcases List.mem_append.mp hm with h | h
    · exact absurd h (by decide)
    · exact hd (by simpa [realpath] using h)
  · simp only [loadLines] at hload
    split at hload
    · rcases List.mem_append.mp hload with h12 | h3
      · rcases List.mem_append.mp h12 with h1 | h2
        · split at h1
          · rcases List.mem_singleton.mp h1 with rfl
            intro hm
            rcases List.mem_append.mp hm with h | h
            · exact absurd h (by decide)
            · exact natStr_no_newline _ h
          · exact absurd h1 (List.not_mem_nil l)
        · simp only [List.mem_cons, List.not_mem_nil, or_false] at h2
          rcases h2 with rfl | rfl | rfl
          · intro hm
            rcases List.mem_append.mp hm with h | h
            · exact absurd h (by decide)
            · exact natStr_no_newline _ h
          · intro hm
            rcases List.mem_append.mp hm with h | h
            · exact absurd h (by decide)
            · exact intStr_no_newline _ h
          · decide
      · split at h3
        · rcases List.mem_singleton.mp h3 with rfl
          intro hm
          rcases List.mem_append.mp hm with h | h
          · exact absurd h (by decide)
          · exact natStr_no_newline _ h
        · exact absurd h3 (List.not_mem_nil l)
    · exact absurd hload (List.not_mem_nil l)
  · decide

theorem filter_bztLines (script dir : Str) (load : LoadProfile) :
    (bztLines script dir load).filter isScriptPropLine
      = ["grinder.script=".toList ++ realpath script] := by
  have hlog : isScriptPropLine ("grinder.logDirectory=".toList ++ realpath dir)
      = false :=
    isScriptPropLine_append_false _ _ (by decide) (by decide)
  have hload : (loadLines load).filter isScriptPropLine = [] := by
    simp only [loadLines]
    split
    · rw [List.filter_append, List.filter_append]
      have h1 : isScriptPropLine ("grinder.processIncrementInterval=".toList
          ++ natStr (1000 * load.ramp_up / load.concurrency)) = false :=
        isScriptPropLine_append_false _ _ (by decide) (by decide)
      have h2 : isScriptPropLine ("grinder.processes=".toList
          ++ natStr load.concurrency) = false :=
        isScriptPropLine_append_false _ _ (by decide) (by decide)
      have h3 : isScriptPropLine ("grinder.runs=".toList
          ++ intStr load.iterations) = false :=
        isScriptPropLine_append_false _ _ (by decide) (by decide)
      have h4 : isScriptPropLine ("grinder.duration=".toList
          ++ natStr (load.duration * 1000)) = false :=
        isScriptPropLine_append_false _ _ (by decide) (by decide)
      have h5 : isScriptPropLine ("grinder.processIncrement=1".toList) = false := by
        decide
      split <;> split <;>
        simp only [List.filter_cons, List.filter_nil, List.filter_append,
          h1, h2, h3, h4, h5, Bool.false_eq_true, if_false, List.append_nil,
          List.nil_append]
    · rfl
  rw [bztLines, List.filter_append, List.filter_append, hload]
  have hstart : isScriptPropLine ("# BZT Properies Start".toList) = false := by decide
  have hhost : isScriptPropLine ("grinder.hostID=grinder-bzt".toList) = false := by
    decide
  have hend : isScriptPropLine ("# BZT Properies End".toList) = false := by decide
  have hscript : isScriptPropLine ("grinder.script=".toList ++ realpath script)
      = true := isScriptPropLine_self_append _
  simp only [List.filter_cons, List.filter_nil, hstart, hhost, hend, hscript,
    hlog, Bool.false_eq_true, if_false, if_true, List.append_nil,
    List.nil_append]

theorem exists_getLast? : ∀ (l : List Str), l ≠ [] → ∃ f, l.getLast? = some f
  | [], h => absurd rfl h
  | [a], _ => ⟨a, rfl⟩
  | _ :: b :: t, _ => by
    obtain ⟨f, hf⟩ := exists_getLast? (b :: t) (by simp)
    exact ⟨f, hf⟩

theorem prepared_scenario_none (bpf spf : Option (Str × Str))
    (bprops sprops : List (Str × Str)) (script dir : Str) (load : LoadProfile) :
    GrinderExecutor.preparedArtifact ⟨bpf, bprops, spf, sprops, none, script, dir, load⟩
      = some (write_base_props bpf bprops ++ write_scenario_props spf sprops
          ++ write_bzt_props script dir load) := by
  have hp3 : ("grinder.script=".toList : Str) = gsPat ++ ['='] := by decide
  have hinfix : ∃ a b,
      (write_base_props bpf bprops ++ write_scenario_props spf sprops
        ++ write_bzt_props script dir load) = a ++ (gsPat ++ b) := by
    refine ⟨write_base_props bpf bprops ++ write_scenario_props spf sprops
        ++ "# BZT Properies Start\n".toList ++ "grinder.hostID=grinder-bzt\n".toList,
      ['='] ++ realpath script ++ "\n".toList ++ "grinder.logDirectory=".toList
        ++ realpath dir ++ "\n".toList
        ++ (if load.concurrency ≠ 0 then
              (if load.ramp_up ≠ 0 then
                 "grinder.processIncrementInterval=".toList
                   ++ natStr (1000 * load.ramp_up / load.concurrency) ++ "\n".toList
               else [])
                ++ "grinder.processes=".toList ++ natStr load.concurrency
                ++ "\n".toList
                ++ "grinder.runs=".toList ++ intStr load.iterations ++ "\n".toList
                ++ "grinder.processIncrement=1\n".toList
                ++ (if load.duration ≠ 0 then
                      "grinder.duration=".toList ++ natStr (load.duration * 1000)
                        ++ "\n".toList
                    else [])
            else [])
        ++ "# BZT Properies End\n".toList, ?_⟩
    simp [write_bzt_props, hp3, gsPat, List.append_assoc]
  have hne : findGs (write_base_props bpf bprops ++ write_scenario_props spf sprops
      ++ write_bzt_props script dir load) ≠ [] := findGs_ne_nil _ hinfix
  obtain ⟨found, hfound⟩ := exists_getLast? _ hne
  simp only [GrinderExecutor.preparedArtifact,
    GrinderExecutor.get_res_files_from_script]
  rw [hfound]
  simp

theorem prepared_filter_script_lines (bpf spf : Option (Str × Str))
    (bprops sprops : List (Str × Str)) (script dir : Str) (load : LoadProfile)
    (hs : '\n' ∉ script) (hd : '\n' ∉ dir) :
    (splitOnChar '\n' (write_base_props bpf bprops ++ write_scenario_props spf sprops
        ++ write_bzt_props script dir load)).filter isScriptPropLine
      = (splitOnChar '\n' (write_base_props bpf bprops
          ++ write_scenario_props spf sprops)).filter isScriptPropLine
        ++ ["grinder.script=".toList ++ realpath script] := by
  have hmem := bztLines_no_newline script dir load hs hd
  have hZ : write_bzt_props script dir load = joinLines (bztLines script dir load) :=
    write_bzt_props_eq_joinLines script dir load
  have hfe : List.filter isScriptPropLine [[]] = ([] : List Str) := by decide
  have hpre : endsNL (write_base_props bpf bprops ++ write_scenario_props spf sprops) :=
    endsNL_append _ _ (write_base_props_endsNL bpf bprops)
      (write_scenario_props_endsNL spf sprops)
  rcases hpre with hnil | ⟨x, hx⟩
  · rw [hnil, List.nil_append, hZ, splitOnChar_joinLines _ hmem,
      List.filter_append, filter_bztLines, hfe]
    simp
    intro a ha
    have ha' : a = [] := by simpa [splitOnChar] using ha
    subst ha'
    decide
  · rw [hx]
    have h1 : (x ++ ['\n']) ++ write_bzt_props script dir load
        = x ++ '\n' :: joinLines (bztLines script dir load) := by
      rw [hZ]
      simp
    rw [h1, splitOnChar_append_cons, splitOnChar_joinLines _ hmem]
    have h2 : splitOnChar '\n' (x ++ ['\n']) = splitOnChar '\n' x ++ [[]] := by
      rw [show (x ++ ['\n'] : Str) = x ++ '\n' :: ([] : Str) from rfl,
        splitOnChar_append_cons]
      rfl
    rw [h2, List.filter_append, List.filter_append, List.filter_append,
      filter_bztLines, hfe]
    simp

/-- C9 (amended): the exactly-one invariant fails (see the counterexample);
what holds is layering.  When no explicit scenario script is set (the
requests-generated case, where the resource pass writes the text back
unchanged), the artifact written by `prepare` is exactly the three sections,
and — proved for every input whose script and artifact-directory paths
contain no newline — its `grinder.script=` lines are exactly the
`grinder.script=` lines of the base and scenario sections followed, last,
by the injected line `grinder.script=` ++ realpath(script).  When an
explicit scenario script is set, the resource pass additionally replaces
every occurrence of the injected script path by the script's basename, so
the injected line's value prefers the explicit scenario script; embedded
script lines with a different path persist — shown at a clean input
(exactly one `grinder.script` property, value the scenario script's
basename) and at an input whose base properties file embeds
`grinder.script=/foo/bar` (that line persists, the injected one last). -/
theorem c9_script_line_invariant :
    (∀ (bpf spf : Option (Str × Str)) (bprops sprops : List (Str × Str))
        (script dir : Str) (load : LoadProfile),
      '\n' ∉ script → '\n' ∉ dir →
      GrinderExecutor.preparedArtifact ⟨bpf, bprops, spf, sprops, none, script, dir, load⟩
        = some (write_base_props bpf bprops ++ write_scenario_props spf sprops
            ++ write_bzt_props script dir load) ∧
      (splitOnChar '\n' (write_base_props bpf bprops ++ write_scenario_props spf sprops
          ++ write_bzt_props script dir load)).filter isScriptPropLine
        = (splitOnChar '\n' (write_base_props bpf bprops
            ++ write_scenario_props spf sprops)).filter isScriptPropLine
          ++ ["grinder.script=".toList ++ realpath script]) ∧
    (GrinderExecutor.preparedArtifact inpClean).map findGs
      = some [("grinder.script=".toList ++ basename ("dir/my.py".toList))] ∧
    (GrinderExecutor.preparedArtifact inpDirty).map findGs
      = some ["grinder.script=/foo/bar".toList,
              "grinder.script=".toList ++ basename ("dir/my.py".toList)] :=
  ⟨fun bpf spf bprops sprops script dir load hs hd =>
    ⟨prepared_scenario_none bpf spf bprops sprops script dir load,
     prepared_filter_script_lines bpf spf bprops sprops script dir load hs hd⟩,
   by decide, by decide⟩

/-- Witness for C9 (amended) at a requests-generated run with no property
files: the artifact has exactly the injected script line. -/
theorem c9_script_line_invariant_witness :
    GrinderExecutor.preparedArtifact
        ⟨none, [], none, [], none, "generated/req.py".toList,
         "/tmp/artifacts".toList, ⟨2, 10, 100, 60⟩⟩
      = some (write_base_props none [] ++ write_scenario_props none []
          ++ write_bzt_props ("generated/req.py".toList)
              ("/tmp/artifacts".toList) ⟨2, 10, 100, 60⟩) ∧
    (splitOnChar '\n' (write_base_props none [] ++ write_scenario_props none []
        ++ write_bzt_props ("generated/req.py".toList)
            ("/tmp/artifacts".toList) ⟨2, 10, 100, 60⟩)).filter isScriptPropLine
      = (splitOnChar '\n' (write_base_props none []
          ++ write_scenario_props none [])).filter isScriptPropLine
        ++ ["grinder.script=".toList ++ realpath ("generated/req.py".toList)] :=
  c9_script_line_invariant.1 none none [] [] ("generated/req.py".toList)
    ("/tmp/artifacts".toList) ⟨2, 10, 100, 60⟩ (by decide) (by decide)
